import Mathlib

/-!
Verification of the syslog-wrapper pipeline (src/main.rs) against its
natural-language specification.  The Rust program is shallowly embedded:
strings are Lean `String`s (byte streams read by the line readers are
modelled as `List Char`), the mpsc channel is a list of buffered items,
and the delivery thread is modelled as the trace of observable events it
performs in program order.
-/

namespace Syslog

/-- The enum `DeliverValue` from main.rs: either a captured line or the
end-of-stream sentinel. -/
inductive DeliverValue where
  | Line (s : String)
  | Eof
deriving DecidableEq

/-- Constant `SYSLOG_PRIORITY` from main.rs (RFC 5424 sec. 6.2.1). -/
def SYSLOG_PRIORITY : String := "22"

/-- Constant `SYSLOG_VERSION` from main.rs (RFC 5424 sec. 6.2.2). -/
def SYSLOG_VERSION : String := "1"

/-- Constant `DEFAULT_SYSLOG_PORT` from main.rs. -/
def DEFAULT_SYSLOG_PORT : Nat := 6514

/-- The clap default for the `max_retries` argument (`default_value_t = 10`
in main.rs). -/
def defaultMaxRetries : Nat := 10

/-- The syslog record built in the delivery loop of main.rs:
`format!("<{SYSLOG_PRIORITY}>{SYSLOG_VERSION} {timestamp} {hostname} {appname} - - - {str}")`. -/
def formatSyslog (timestamp hostname appname msg : String) : String :=
  "<" ++ SYSLOG_PRIORITY ++ ">" ++ SYSLOG_VERSION ++ " " ++ timestamp ++ " " ++
    hostname ++ " " ++ appname ++ " - - - " ++ msg

/-- The fixed code passed to `exit` when spawning the child fails
(main.rs, the `Err` arm of the `spawn_result` match). -/
def spawnFailureCode : Int := 40

/-- The fixed code passed to `exit` when the delivery thread's TCP connect
fails (main.rs, `unwrap_or_else` around `TcpStream::connect`). -/
def connectFailureCode : Int := 127

/-- main.rs spawn handling: an `Err` from `Command::spawn` prints a
diagnostic and exits with `spawnFailureCode`; an `Ok` child continues. -/
def spawnOutcome (ok : Bool) : Except Int Unit :=
  if ok then Except.ok () else Except.error spawnFailureCode

/-- The result of `child_process.wait()` as matched at the end of main.rs:
a declared exit code, a termination without a code, or a wait error. -/
inductive WaitResult where
  | code (n : Int)
  | noCode
  | waitError
deriving DecidableEq

/-- The final `exit` call of main.rs, selected from the child's wait
result: a declared code is passed through unchanged, while a missing code
or a wait error exits with the fixed code 40. -/
def finalExit : WaitResult → Int
  | WaitResult.code n => n
  | WaitResult.noCode => 40
  | WaitResult.waitError => 40

/-- `str::split_once(":")` on a char list: split at the first colon, or
`none` when the string has no colon. -/
def splitOnceColon : List Char → Option (List Char × List Char)
  | [] => none
  | c :: rest =>
      if c = ':' then some ([], rest)
      else
        match splitOnceColon rest with
        | none => none
        | some (pre, suf) => some (c :: pre, suf)

/-- Numeric value of an ASCII digit character. -/
def digitVal (c : Char) : Nat := c.toNat - 48

/-- Rust's `str::parse::<u16>()`: an optional leading `+`, then one or
more ASCII digits, with the value required to fit in 16 bits; anything
else is a parse error (`none`). -/
def parseU16 (s : List Char) : Option Nat :=
  let ds := match s with
    | '+' :: rest => rest
    | _ => s
  if !ds.isEmpty && ds.all Char.isDigit then
    let n := ds.foldl (fun acc c => acc * 10 + digitVal c) 0
    if n ≤ 65535 then some n else none
  else none

/-- The `(host, port)` selection in main.rs: `split_once(":")` on the
server argument; with a colon, the suffix is parsed as a `u16` and an
unparseable suffix panics via `unwrap` (modelled as `none`); without a
colon the whole argument is the host and the port is
`DEFAULT_SYSLOG_PORT`. -/
def parseServer (server : String) : Option (String × Nat) :=
  match splitOnceColon server.toList with
  | some (host, portStr) =>
      match parseU16 portStr with
      | some p => some (String.mk host, p)
      | none => none
  | none => some (server, DEFAULT_SYSLOG_PORT)

/-- State of the optional `--add-trusted-certificates` file as the
delivery thread will find it: openable and parseable, openable but not a
parseable certificate, or unopenable. -/
inductive CertFileState where
  | unreadable
  | unparseable
  | valid
deriving DecidableEq

/-- Observable events of the delivery thread of main.rs, in program
order. -/
inductive DeliveryEvent where
  | connectAttempt (host : String) (port : Nat)
  | exitCall (code : Int)
  | certOpen
  | panicCall
  | sessionInit
  | writeMsg (bytes : String)
  | terminate
deriving DecidableEq

/-- Recognizer for transport connection attempts in a delivery trace. -/
def isConnectAttempt : DeliveryEvent → Bool
  | DeliveryEvent.connectAttempt _ _ => true
  | _ => false

/-- Recognizer for message writes in a delivery trace. -/
def isWrite : DeliveryEvent → Bool
  | DeliveryEvent.writeMsg _ => true
  | _ => false

/-- The streaming loop of the delivery thread: pop items in order; a
`Line` is formatted (with the current time, taken per message from `ts`)
and written; `Eof` breaks the loop and terminates the thread. -/
def streamEvents (ts : Nat → String) (hostname appname : String) :
    Nat → List DeliverValue → List DeliveryEvent
  | _, [] => []
  | _, DeliverValue.Eof :: _ => [DeliveryEvent.terminate]
  | i, DeliverValue.Line s :: rest =>
      DeliveryEvent.writeMsg (formatSyslog (ts i) hostname appname s) ::
        streamEvents ts hostname appname (i + 1) rest

/-- The delivery thread of main.rs as an event trace, in the source's
program order: first `TcpStream::connect` (exit 127 on failure), then —
only if a certificate file was supplied — opening and parsing it (panic
on failure), then TLS client-session construction, then the streaming
loop. `cert = none` models a run without `--add-trusted-certificates`. -/
def deliveryTrace (host : String) (port : Nat) (connectOk : Bool)
    (cert : Option CertFileState) (ts : Nat → String)
    (hostname appname : String) (q : List DeliverValue) : List DeliveryEvent :=
  if connectOk then
    DeliveryEvent.connectAttempt host port ::
      (match cert with
       | none => DeliveryEvent.sessionInit :: streamEvents ts hostname appname 0 q
       | some CertFileState.valid =>
           DeliveryEvent.certOpen :: DeliveryEvent.sessionInit ::
             streamEvents ts hostname appname 0 q
       | some CertFileState.unreadable => [DeliveryEvent.certOpen, DeliveryEvent.panicCall]
       | some CertFileState.unparseable => [DeliveryEvent.certOpen, DeliveryEvent.panicCall])
  else [DeliveryEvent.connectAttempt host port, DeliveryEvent.exitCall connectFailureCode]

/-- One `Line` iteration of main.rs's delivery loop in isolation:
`stream.write(formatted.as_bytes()).unwrap()` — a successful write emits
the message, a failed write panics the thread at once. -/
def mainWriteStep (writeOk : Bool) (msg : String) : List DeliveryEvent :=
  if writeOk then [DeliveryEvent.writeMsg msg] else [DeliveryEvent.panicCall]

/-- The parsed command-line arguments of main.rs (struct `Args`); the
certificate path is modelled by the state its file will be found in. -/
structure Args where
  server : String
  hostname : Option String
  appname : Option String
  max_retries : Nat
  add_trusted_certificates : Option CertFileState
  command : List String

/-- The whole observable delivery behavior as a function of the parsed
arguments: the `(host, port)` split (whose parse failure panics in main
before any thread starts, modelled as `none`), then the delivery thread's
trace, with `hostname`/`appname` defaulted as in main.rs (system hostname
and `command[0]` respectively). -/
def deliveryOfArgs (a : Args) (sysHostname : String) (connectOk : Bool)
    (ts : Nat → String) (q : List DeliverValue) : Option (List DeliveryEvent) :=
  match parseServer a.server with
  | none => none
  | some (host, port) =>
      some (deliveryTrace host port connectOk a.add_trusted_certificates ts
        (a.hostname.getD sysHostname) (a.appname.getD (a.command.headD "")) q)

/-- State of the `std::sync::mpsc::channel()` created in main.rs: the
list of items sent and not yet received, in send order.  The channel is
the unbounded flavor (`channel()`, not `sync_channel(n)`). -/
structure MpscChannel (α : Type) where
  buffer : List α
deriving DecidableEq

/-- `Sender::send` on the unbounded channel: it always appends and
returns at once (it never blocks; it can only error once the receiver is
dropped, which main.rs treats as a panic via `expect`). -/
def MpscChannel.send {α : Type} (q : MpscChannel α) (v : α) : MpscChannel α :=
  MpscChannel.mk (q.buffer ++ [v])

/-- A sequence of `send` calls in order. -/
def MpscChannel.sendAll {α : Type} (q : MpscChannel α) : List α → MpscChannel α
  | [] => q
  | v :: vs => MpscChannel.sendAll (q.send v) vs

/-- A freshly created channel holds nothing. -/
def channelEmpty {α : Type} : MpscChannel α := MpscChannel.mk []

/-- `BufRead::read_line` at the character level: consume up to and
including the first newline, or everything that remains when the stream
ends first; returns the bytes read and the rest of the stream. -/
def read_line : List Char → List Char × List Char
  | [] => ([], [])
  | c :: rest =>
      if c = '\n' then ([c], rest)
      else (c :: (read_line rest).1, (read_line rest).2)

/-- The reader-thread loop of main.rs: `read_line`, break when it reads
zero bytes, otherwise push the line (terminator included) and repeat.
The result is the list of pushed `Line` payloads in push order. -/
def readerRun (s : List Char) : List (List Char) :=
  if h : (read_line s).1 = [] then []
  else (read_line s).1 :: readerRun (read_line s).2
termination_by s.length
decreasing_by
  have happ : ∀ t : List Char, (read_line t).1 ++ (read_line t).2 = t := by
    intro t
    induction t with
    | nil => rfl
    | cons c rest ih =>
        by_cases hc : c = '\n'
        · simp [read_line, hc]
        · simp [read_line, hc, ih]
  have hlen := congrArg List.length (happ s)
  simp only [List.length_append] at hlen
  have hpos : 0 < (read_line s).1.length := List.length_pos.mpr h
  omega

/-- The streaming loop of main.rs viewed as a consumer of the whole queue
content: returns the `Line` payloads written in order and whether the
loop terminated by popping `Eof` (as opposed to running out of input). -/
def deliveryLoop : List DeliverValue → List String × Bool
  | [] => ([], false)
  | DeliverValue.Eof :: _ => ([], true)
  | DeliverValue.Line s :: rest =>
      (s :: (deliveryLoop rest).1, (deliveryLoop rest).2)

/-- Payload extraction from a delivery item. -/
def linePayload : DeliverValue → Option String
  | DeliverValue.Line s => some s
  | DeliverValue.Eof => none

/-- The supervisor's shutdown sequence in main.rs: after joining both
reader threads, whose pushes form the queue content `q`, it sends exactly
one `Eof`. -/
def supervisorQueue (q : List DeliverValue) : List DeliverValue :=
  q ++ [DeliverValue.Eof]

/-- `Interleaves xs ys zs`: `zs` is an order-preserving merge of `xs` and
`ys`, the possible queue contents produced by two concurrent producers. -/
inductive Interleaves {α : Type} : List α → List α → List α → Prop where
  | nil : Interleaves [] [] []
  | left {x : α} {xs ys zs : List α} :
      Interleaves xs ys zs → Interleaves (x :: xs) ys (x :: zs)
  | right {y : α} {xs ys zs : List α} :
      Interleaves xs ys zs → Interleaves xs (y :: ys) (y :: zs)

theorem read_line_append (s : List Char) :
    (read_line s).1 ++ (read_line s).2 = s := by
  induction s with
  | nil => rfl
  | cons c rest ih =>
      by_cases hc : c = '\n' <;> simp [read_line, hc, ih]

theorem read_line_fst_eq_nil {s : List Char} (h : (read_line s).1 = []) :
    s = [] := by
  cases s with
  | nil => rfl
  | cons c rest => by_cases hc : c = '\n' <;> simp [read_line, hc] at h

theorem read_line_spec (s : List Char) :
    ('\n' ∈ s → ∃ p q, s = p ++ '\n' :: q ∧ '\n' ∉ p ∧
        read_line s = (p ++ ['\n'], q)) ∧
    ('\n' ∉ s → read_line s = (s, [])) := by
  induction s with
  | nil => exact ⟨fun h => absurd h (List.not_mem_nil _), fun _ => rfl⟩
  | cons c rest ih =>
      by_cases hc : c = '\n'
      · subst hc
        refine ⟨fun _ => ⟨[], rest, rfl, List.not_mem_nil _, by simp [read_line]⟩, ?_⟩
        intro h
        exact absurd (List.mem_cons_self _ _) h
      · constructor
        · intro hmem
          have hr : '\n' ∈ rest := by
            rcases List.mem_cons.mp hmem with e | m
            · exact absurd e.symm hc
            · exact m
          obtain ⟨p, q, hq, hp, hrl⟩ := ih.1 hr
          refine ⟨c :: p, q, by simp [hq], ?_, ?_⟩
          · intro hm
            rcases List.mem_cons.mp hm with e | m
            · exact hc e.symm
            · exact hp m
          · simp [read_line, hc, hrl]
        · intro hmem
          have hr : '\n' ∉ rest := fun m => hmem (List.mem_cons_of_mem _ m)
          simp [read_line, hc, ih.2 hr]

theorem readerRun_nil : readerRun [] = [] := by
  rw [readerRun]
  simp [read_line]

theorem readerRun_flatten (s : List Char) : (readerRun s).flatten = s := by
  induction s using readerRun.induct with
  | case1 s h =>
      have hs := read_line_fst_eq_nil h
      subst hs
      rw [readerRun]
      simp [read_line]
  | case2 s h ih =>
      rw [readerRun, dif_neg h]
      simp only [List.flatten_cons]
      rw [ih, read_line_append]

theorem readerRun_items (s : List Char) :
    ∀ l ∈ readerRun s, l ≠ [] ∧ ∀ c ∈ l.dropLast, c ≠ '\n' := by
  induction s using readerRun.induct with
  | case1 s h =>
      rw [readerRun, dif_pos h]
      intro l hl
      cases hl
  | case2 s h ih =>
      rw [readerRun, dif_neg h]
      intro l hl
      rcases List.mem_cons.mp hl with rfl | m
      · refine ⟨h, ?_⟩
        by_cases hmem : '\n' ∈ s
        · obtain ⟨p, q, hpq, hp, hrl⟩ := (read_line_spec s).1 hmem
          rw [hrl]
          simp only [List.dropLast_concat]
          intro c hc e
          exact hp (e ▸ hc)
        · rw [(read_line_spec s).2 hmem]
          intro c hc e
          exact hmem (e ▸ List.mem_of_mem_dropLast hc)
      · exact ih l m

theorem readerRun_items_bool (s : List Char) :
    ((readerRun s).all fun l =>
      !l.isEmpty && l.dropLast.all fun c => c != '\n') = true := by
  rw [List.all_eq_true]
  intro l hl
  obtain ⟨hne, hdl⟩ := readerRun_items s l hl
  simp only [Bool.and_eq_true, Bool.not_eq_true', List.isEmpty_eq_false,
    List.all_eq_true, bne_iff_ne]
  exact ⟨hne, hdl⟩

theorem readerRun_length (s : List Char) :
    (readerRun s).length = s.count '\n' +
      (if s = [] then 0 else if s.getLast? = some '\n' then 0 else 1) := by
  induction s using readerRun.induct with
  | case1 s h =>
      have hs := read_line_fst_eq_nil h
      subst hs
      rw [readerRun, dif_pos h]
      simp
  | case2 s h ih =>
      have hs : s ≠ [] := by
        intro e
        subst e
        exact h rfl
      rw [readerRun, dif_neg h, List.length_cons]
      by_cases hmem : '\n' ∈ s
      · obtain ⟨p, q, hpq, hp, hrl⟩ := (read_line_spec s).1 hmem
        have hsnd : (read_line s).2 = q := by rw [hrl]
        rw [hsnd] at ih ⊢
        have hcount : s.count '\n' = q.count '\n' + 1 := by
          rw [hpq, List.count_append, List.count_cons]
          simp [List.count_eq_zero.mpr hp]
        have hlast : s.getLast? = ('\n' :: q).getLast? := by
          rw [hpq, List.getLast?_append_cons]
        rcases eq_or_ne q [] with rfl | hq
        · rw [readerRun_nil] at ih ⊢
          rw [ih, hcount]
          simp [hs, hlast]
        · have hql : ('\n' :: q).getLast? = q.getLast? :=
            List.getLast?_append_of_ne_nil ['\n'] hq
          rw [ih, hcount, if_neg hs, hlast, hql, if_neg hq]
          omega
      · have hrl := (read_line_spec s).2 hmem
        have hsnd : (read_line s).2 = [] := by rw [hrl]
        rw [hsnd, readerRun_nil] at ih ⊢
        have hcount : s.count '\n' = 0 := List.count_eq_zero.mpr hmem
        have hlast : ¬ s.getLast? = some '\n' := by
          intro e
          obtain ⟨hne, he⟩ := List.mem_getLast?_eq_getLast (by rw [e]; rfl)
          exact hmem (he ▸ List.getLast_mem hne)
        simp [hcount, hs, hlast]

theorem splitOnceColon_of_not_mem {cs : List Char} (h : ':' ∉ cs) :
    splitOnceColon cs = none := by
  induction cs with
  | nil => rfl
  | cons c rest ih =>
      have hc : ¬ c = ':' := fun e => h (e ▸ List.mem_cons_self c rest)
      have hrest : ':' ∉ rest := fun m => h (List.mem_cons_of_mem c m)
      simp [splitOnceColon, hc, ih hrest]

theorem splitOnceColon_append {pre suf : List Char} (h : ':' ∉ pre) :
    splitOnceColon (pre ++ ':' :: suf) = some (pre, suf) := by
  induction pre with
  | nil => simp [splitOnceColon]
  | cons c rest ih =>
      have hc : ¬ c = ':' := fun e => h (e ▸ List.mem_cons_self c rest)
      have hrest : ':' ∉ rest := fun m => h (List.mem_cons_of_mem c m)
      simp [splitOnceColon, hc, ih hrest]

theorem interleaves_forall {α : Type} {P : α → Prop} {xs ys zs : List α}
    (h : Interleaves xs ys zs) :
    (∀ v ∈ xs, P v) → (∀ v ∈ ys, P v) → ∀ v ∈ zs, P v := by
  induction h with
  | nil => intro _ _ v hv; cases hv
  | left _ ih =>
      intro hx hy v hv
      rcases List.mem_cons.mp hv with rfl | m
      · exact hx _ (List.mem_cons_self _ _)
      · exact ih (fun u hu => hx u (List.mem_cons_of_mem _ hu)) hy v m
  | right _ ih =>
      intro hx hy v hv
      rcases List.mem_cons.mp hv with rfl | m
      · exact hy _ (List.mem_cons_self _ _)
      · exact ih hx (fun u hu => hy u (List.mem_cons_of_mem _ hu)) v m

theorem queue_all_line {A B : List String} {q : List DeliverValue}
    (h : Interleaves (A.map DeliverValue.Line) (B.map DeliverValue.Line) q) :
    ∀ v ∈ q, ∃ s, v = DeliverValue.Line s := by
  refine interleaves_forall h ?_ ?_ <;> intro v hv <;>
    (rcases List.mem_map.mp hv with ⟨s, _, rfl⟩; exact ⟨s, rfl⟩)

theorem deliveryLoop_lines {q : List DeliverValue}
    (h : ∀ v ∈ q, ∃ s, v = DeliverValue.Line s) (extra : List DeliverValue) :
    deliveryLoop (q ++ DeliverValue.Eof :: extra) =
      (q.filterMap linePayload, true) := by
  induction q with
  | nil => rfl
  | cons v q ih =>
      obtain ⟨s, rfl⟩ := h v (List.mem_cons_self _ _)
      simp [deliveryLoop, linePayload,
        ih (fun u hu => h u (List.mem_cons_of_mem _ hu))]

theorem count_eof_zero {q : List DeliverValue}
    (h : ∀ v ∈ q, ∃ s, v = DeliverValue.Line s) :
    q.count DeliverValue.Eof = 0 :=
  List.count_eq_zero.mpr fun m => by
    obtain ⟨s, e⟩ := h _ m
    exact DeliverValue.noConfusion e

theorem sendAll_buffer {α : Type} (vs : List α) (q : MpscChannel α) :
    (q.sendAll vs).buffer = q.buffer ++ vs := by
  induction vs generalizing q with
  | nil => simp [MpscChannel.sendAll]
  | cons v vs ih => simp [MpscChannel.sendAll, ih, MpscChannel.send]

/-- C1 counterexample: the three fixed failure codes of main.rs are not
pairwise distinct — spawn failure and child-terminated-without-a-code
both exit with 40 (only the connect-failure code 127 differs). -/
theorem c1_counterexample :
    ¬ (spawnFailureCode ≠ connectFailureCode ∧
       spawnFailureCode ≠ finalExit WaitResult.noCode ∧
       connectFailureCode ≠ finalExit WaitResult.noCode) := by
  decide

/-- C1 amended: the connection-failure exit code (127) is distinct from
the spawn-failure code and the no-reportable-code code, but those two are
the same value (40); moreover a child exit code equal to 40 or 127 is
passed through unchanged, so the fixed codes also collide with
pass-through child codes. -/
theorem c1_amended :
    spawnFailureCode = finalExit WaitResult.noCode ∧
    spawnFailureCode ≠ connectFailureCode ∧
    finalExit WaitResult.noCode ≠ connectFailureCode ∧
    finalExit (WaitResult.code spawnFailureCode) = spawnFailureCode ∧
    finalExit (WaitResult.code connectFailureCode) = connectFailureCode := by
  decide

/-- C2 counterexample: in the run whose first transport connect fails,
the delivery thread of main.rs makes exactly one connection attempt and
immediately exits fatally with the fixed code 127 — it never consults any
retry policy, although the policy's default maximum (10) is far from
exhausted. -/
theorem c2_counterexample :
    deliveryTrace "logs.example.com" 6514 false none (fun _ => "") "h" "app" [] =
      [DeliveryEvent.connectAttempt "logs.example.com" 6514,
       DeliveryEvent.exitCall connectFailureCode] ∧
    ((deliveryTrace "logs.example.com" 6514 false none (fun _ => "") "h" "app"
        []).filter isConnectAttempt).length = 1 ∧
    (1 : Nat) < defaultMaxRetries :=
  ⟨rfl, rfl, by decide⟩

/-- C2 amended: the delivery worker of main.rs never retries — a
first-attempt connect failure terminates the program at once with the
fixed exit code 127 after exactly one connection attempt and no backoff,
and a mid-stream write failure panics the thread immediately; no retry
policy is consulted on either path. -/
theorem c2_amended (host : String) (port : Nat) (cert : Option CertFileState)
    (ts : Nat → String) (hostname appname : String) (q : List DeliverValue)
    (msg : String) :
    deliveryTrace host port false cert ts hostname appname q =
      [DeliveryEvent.connectAttempt host port,
       DeliveryEvent.exitCall connectFailureCode] ∧
    ((deliveryTrace host port false cert ts hostname appname
        q).filter isConnectAttempt).length = 1 ∧
    mainWriteStep false msg = [DeliveryEvent.panicCall] :=
  ⟨rfl, rfl, rfl⟩

/-- C3 counterexample: the queue of main.rs is the unbounded
`mpsc::channel()`.  Sending 1001 lines from the empty channel succeeds
(every `send` returns, none blocks) and leaves 1001 buffered items, so no
constant in the claimed "tens to low hundreds" bounds the queue. -/
theorem c3_counterexample :
    ((channelEmpty.sendAll (List.replicate 1001 (DeliverValue.Line "x"))).buffer).length
      = 1001 ∧ (1000 : Nat) < 1001 := by
  constructor
  · rw [sendAll_buffer]
    show (([] : List DeliverValue) ++
        List.replicate 1001 (DeliverValue.Line "x")).length = 1001
    rw [List.nil_append, List.length_replicate]
  · decide

/-- C3 amended: the message queue is the unbounded mpsc channel — a push
always succeeds immediately without blocking, appending to the buffer, so
after any sequence of sends the queue holds every sent and unconsumed
item in FIFO order with no capacity limit. -/
theorem c3_amended (q : MpscChannel DeliverValue) (v : DeliverValue)
    (vs : List DeliverValue) :
    (q.send v).buffer = q.buffer ++ [v] ∧
    (q.sendAll vs).buffer = q.buffer ++ vs :=
  ⟨rfl, sendAll_buffer vs q⟩

/-- C4 counterexample: in the run where the trusted-certificate file is
unreadable and the TCP connect succeeds, the delivery thread of main.rs
has already made a transport connection attempt before it ever touches
the certificate file — refuting "no transport connection attempt is ever
made" for such executions. -/
theorem c4_counterexample :
    DeliveryEvent.connectAttempt "logs.example.com" 6514 ∈
      deliveryTrace "logs.example.com" 6514 true (some CertFileState.unreadable)
        (fun _ => "") "h" "app" [] :=
  List.Mem.head _

/-- C4 amended: an unreadable or unparseable trusted-certificate file is
fatal (a panic) before TLS session construction and before any message
write — but only after the TCP connection attempt, which main.rs always
performs first; on a run whose connect succeeds, the trace is exactly
connect, certificate open, panic. -/
theorem c4_amended (host : String) (port : Nat) (connectOk : Bool)
    (cert : CertFileState) (ts : Nat → String) (hostname appname : String)
    (q : List DeliverValue)
    (hcert : cert = CertFileState.unreadable ∨ cert = CertFileState.unparseable) :
    deliveryTrace host port connectOk (some cert) ts hostname appname q =
      (if connectOk then
        [DeliveryEvent.connectAttempt host port, DeliveryEvent.certOpen,
         DeliveryEvent.panicCall]
       else
        [DeliveryEvent.connectAttempt host port,
         DeliveryEvent.exitCall connectFailureCode]) ∧
    DeliveryEvent.sessionInit ∉
      deliveryTrace host port connectOk (some cert) ts hostname appname q ∧
    ((deliveryTrace host port connectOk (some cert) ts hostname appname
        q).all fun e => !(isWrite e)) = true := by
  rcases hcert with h | h <;> subst h <;> cases connectOk <;>
    simp [deliveryTrace, isWrite]

/-- C4 witness: the amended statement at a concrete run — unreadable
certificate file, successful connect, empty queue. -/
theorem c4_witness :
    deliveryTrace "logs.example.com" 6514 true (some CertFileState.unreadable)
        (fun _ => "t") "h" "app" [] =
      (if true then
        [DeliveryEvent.connectAttempt "logs.example.com" 6514,
         DeliveryEvent.certOpen, DeliveryEvent.panicCall]
       else
        [DeliveryEvent.connectAttempt "logs.example.com" 6514,
         DeliveryEvent.exitCall connectFailureCode]) ∧
    DeliveryEvent.sessionInit ∉
      deliveryTrace "logs.example.com" 6514 true (some CertFileState.unreadable)
        (fun _ => "t") "h" "app" [] ∧
    ((deliveryTrace "logs.example.com" 6514 true (some CertFileState.unreadable)
        (fun _ => "t") "h" "app" []).all fun e => !(isWrite e)) = true :=
  c4_amended "logs.example.com" 6514 true CertFileState.unreadable
    (fun _ => "t") "h" "app" [] (Or.inl rfl)

/-- C6: a child that exits with a declared code `n` makes the wrapper
exit with the same `n` — the final match of main.rs passes the declared
code through unchanged. -/
theorem c6_exit_code_propagation (n : Int) :
    finalExit (WaitResult.code n) = n :=
  rfl

/-- C7 counterexample: on the stream `a\nb` — whose single
newline-terminated line is `a\n` — the reader loop of main.rs pushes two
items, `a\n` and the unterminated final segment `b`, so the number of
items pushed is not the number of newline-terminated lines, and the
second item carries no trailing terminator. -/
theorem c7_counterexample :
    readerRun ['a', '\n', 'b'] = [['a', '\n'], ['b']] ∧
    (readerRun ['a', '\n', 'b']).length = 2 ∧
    ['a', '\n', 'b'].count '\n' = 1 := by
  refine ⟨?_, ?_, by decide⟩ <;> simp [readerRun, read_line]

/-- C7 amended: a reader pushes no item on an immediate zero-byte read;
the pushed items concatenate back to the stream byte-for-byte in order;
every pushed item is non-empty and contains a newline only as its last
character (so every newline-terminated line is pushed in full, terminator
included); and the number of items equals the number of newlines, plus
one extra item exactly when the stream is non-empty and does not end in a
newline. -/
theorem c7_amended (s : List Char) :
    readerRun [] = [] ∧
    (readerRun s).flatten = s ∧
    ((readerRun s).all fun l =>
      !l.isEmpty && l.dropLast.all fun c => c != '\n') = true ∧
    (readerRun s).length = s.count '\n' +
      (if s = [] then 0 else if s.getLast? = some '\n' then 0 else 1) :=
  ⟨readerRun_nil, readerRun_flatten s, readerRun_items_bool s, readerRun_length s⟩

/-- C8: the formatter of main.rs produces exactly the record
`<22>1 TIMESTAMP HOSTNAME APPNAME - - - MESSAGE`, with the fixed
constants 22 and 1, the three nil placeholders, and the message verbatim
at the end; being a pure function of its inputs, the same inputs with a
fixed timestamp always yield byte-identical output. -/
theorem c8_formatter :
    SYSLOG_PRIORITY = "22" ∧ SYSLOG_VERSION = "1" ∧
    ∀ timestamp hostname appname msg : String,
      formatSyslog timestamp hostname appname msg =
        "<22>1 " ++ timestamp ++ " " ++ hostname ++ " " ++ appname ++
          " - - - " ++ msg :=
  ⟨rfl, rfl, fun _ _ _ _ => rfl⟩

/-- C5: after both readers have finished — their pushes forming an
arbitrary interleaving `q` of the two per-stream line sequences — the
supervisor of main.rs sends exactly one `Eof`; it is the last item of the
queue, the delivery loop writes exactly the lines before it and then
terminates successfully (returning `true`, with no requeue or reconnect
event), and anything hypothetically after the sentinel would never be
observed. -/
theorem c5_sentinel (outLines errLines : List String) (q extra : List DeliverValue)
    (h : Interleaves (outLines.map DeliverValue.Line)
          (errLines.map DeliverValue.Line) q) :
    (supervisorQueue q).count DeliverValue.Eof = 1 ∧
    (supervisorQueue q).getLast? = some DeliverValue.Eof ∧
    deliveryLoop (supervisorQueue q) = (q.filterMap linePayload, true) ∧
    deliveryLoop (q ++ DeliverValue.Eof :: extra) =
      deliveryLoop (supervisorQueue q) := by
  have hall := queue_all_line h
  refine ⟨?_, ?_, deliveryLoop_lines hall [], ?_⟩
  · simp [supervisorQueue, List.count_append, count_eof_zero hall]
  · simp [supervisorQueue]
  · rw [deliveryLoop_lines hall extra]
    exact (deliveryLoop_lines hall []).symm

/-- C5 witness: the sentinel property at a concrete run with one stdout
line, one stderr line, and a hypothetical extra item after the
sentinel. -/
theorem c5_sentinel_witness :
    (supervisorQueue [DeliverValue.Line "a\n", DeliverValue.Line "b\n"]).count
        DeliverValue.Eof = 1 ∧
    (supervisorQueue [DeliverValue.Line "a\n", DeliverValue.Line "b\n"]).getLast?
        = some DeliverValue.Eof ∧
    deliveryLoop (supervisorQueue [DeliverValue.Line "a\n", DeliverValue.Line "b\n"])
        = ([DeliverValue.Line "a\n", DeliverValue.Line "b\n"].filterMap linePayload,
           true) ∧
    deliveryLoop ([DeliverValue.Line "a\n", DeliverValue.Line "b\n"] ++
        DeliverValue.Eof :: [DeliverValue.Line "z\n"]) =
      deliveryLoop (supervisorQueue [DeliverValue.Line "a\n", DeliverValue.Line "b\n"]) :=
  c5_sentinel ["a\n"] ["b\n"] [DeliverValue.Line "a\n", DeliverValue.Line "b\n"]
    [DeliverValue.Line "z\n"] (Interleaves.left (Interleaves.right Interleaves.nil))

/-- C9: main.rs splits the server argument at its first colon; a colon
whose suffix fails to parse as a 16-bit port makes the program panic (the
`unwrap`, modelled as `none`) during server-string processing, while an
argument without any colon uses the whole string as host with port
6514. -/
theorem c9_port_handling :
    (∀ server : String, ':' ∉ server.toList →
        parseServer server = some (server, DEFAULT_SYSLOG_PORT)) ∧
    (∀ (server : String) (host rest : List Char),
        server.toList = host ++ ':' :: rest → ':' ∉ host →
        parseU16 rest = none →
        parseServer server = none) := by
  constructor
  · intro server h
    have h' : ':' ∉ server.data := h
    simp [parseServer, splitOnceColon_of_not_mem h']
  · intro server host rest hsplit hhost hparse
    have h' : server.data = host ++ ':' :: rest := hsplit
    simp [parseServer, h', splitOnceColon_append hhost, hparse]

/-- C9 witness: `localhost` has no colon and gets port 6514, while
`localhost:` has a colon with an unparseable (empty) port suffix and
panics. -/
theorem c9_witness :
    parseServer "localhost" = some ("localhost", DEFAULT_SYSLOG_PORT) ∧
    parseServer "localhost:" = none :=
  ⟨c9_port_handling.1 "localhost" (by decide),
   c9_port_handling.2 "localhost:" "localhost".toList [] (by decide) (by decide) rfl⟩

/-- C10: the delivery behavior never reads `max_retries` — two argument
records that differ only in that field produce identical connection
targets and identical delivery traces on every run. -/
theorem c10_max_retries_unused (a : Args) (m₁ m₂ : Nat) (sysHostname : String)
    (connectOk : Bool) (ts : Nat → String) (q : List DeliverValue) :
    deliveryOfArgs
        (Args.mk a.server a.hostname a.appname m₁ a.add_trusted_certificates
          a.command) sysHostname connectOk ts q =
      deliveryOfArgs
        (Args.mk a.server a.hostname a.appname m₂ a.add_trusted_certificates
          a.command) sysHostname connectOk ts q :=
  rfl

end Syslog
